import Mathlib

/-!
Verification of the `ptr_meta` crate: the fat-pointer codec (`metadata`,
`from_raw_parts`, `to_raw_parts`), the `DynMetadata` vtable handle with its
fixed-offset introspection, and the `Pointee` derive generator together with
its attribute front end.

Addresses are modelled as natural numbers, in pointer-sized units where the
source does pointer arithmetic on `*const usize`. The `#[repr(C)]` union
`PtrRepr<T>` lets the source read one representation either as a raw pointer
or as a two-field record; the layout contract the source relies on ("Only std
can make this guarantee") identifies the two views, so the model carries the
shared representation, namely the components record.
-/

namespace PtrMeta

/-- The `#[repr(C)]` struct `PtrComponents<T>` from `src/ptr_meta/src/lib.rs`:
the two-field record view of a possibly-wide raw pointer, holding the data
address and the pointer metadata. The metadata type is a parameter,
instantiated at `Unit` for `Sized` types, at `Nat` (a `usize` count) for
slices and `str`, and at `DynMetadata` for trait objects. -/
structure PtrComponents (Meta : Type) where
  data_address : Nat
  metadata : Meta

/-- The `#[repr(C)]` union `PtrRepr<T>`: one representation readable either as
the opaque pointer (`const_ptr` / `mut_ptr` fields) or as its components
(`components` field). Per the layout contract both views share the same bits,
so the model stores the components; a `*const T` value is such a
representation read through the pointer view. -/
structure PtrRepr (Meta : Type) where
  components : PtrComponents Meta

/-- A (possibly-wide) raw pointer `*const T`, identified with its union
representation per the layout contract. -/
abbrev Ptr (Meta : Type) := PtrRepr Meta

/-- The function `metadata` from `src/ptr_meta/src/lib.rs`: place the pointer
in the union (`PtrRepr { const_ptr: ptr }`) and read
`.components.metadata`. -/
def metadata {Meta : Type} (ptr : Ptr Meta) : Meta :=
  ptr.components.metadata

/-- The thin cast `self as *const ()` performed by `to_raw_parts`: dropping a
wide pointer to its address half, which under the layout contract reads the
`data_address` field of the components view. -/
def addr_cast {Meta : Type} (ptr : Ptr Meta) : Nat :=
  ptr.components.data_address

/-- The function `from_raw_parts` from `src/ptr_meta/src/lib.rs`: build the
union through its `components` view from the given data address and metadata,
and read it back through the `const_ptr` view. -/
def from_raw_parts {Meta : Type} (data_address : Nat) (metadata : Meta) :
    Ptr Meta :=
  { components := { data_address := data_address, metadata := metadata } }

/-- `PtrExt::to_raw_parts` for `*const T` from `src/ptr_meta/src/lib.rs`:
`(self as Self::Raw, metadata(self))`. -/
def to_raw_parts {Meta : Type} (ptr : Ptr Meta) : Nat × Meta :=
  (addr_cast ptr, metadata ptr)

/-- A reference to a slice value `[T]` of declared element count `count`
living at address `addr`. The impl `Pointee for [T]` in
`src/ptr_meta/src/lib.rs` records that slice pointers carry "a `usize`
representing the length of the slice in elements as their metadata", so the
platform forms the wide pointer with metadata half `count`. The element type
`T` is phantom: it does not influence the representation. -/
def slice_ref (T : Type) (addr count : Nat) : Ptr Nat :=
  { components := { data_address := addr, metadata := count } }

/-- A reference to a `str` value of declared byte count `byte_count`: the impl
`Pointee for str` records that string slice pointers carry "a `usize`
representing the length of the string slice in bytes as their metadata". -/
def str_ref (addr byte_count : Nat) : Ptr Nat :=
  { components := { data_address := addr, metadata := byte_count } }

/-- Memory as seen through `*const usize` reads: `read i` is the pointer-sized
word at index `i`, counted in pointer-sized units (so `.add(1)` on a
`*const usize` moves the index by one). -/
structure Memory where
  read : Nat → Nat

/-- `DynMetadata<Dyn>` from `src/ptr_meta/src/lib.rs`: the metadata of a trait
object pointer, holding (the address of) a reference to the vtable. -/
structure DynMetadata where
  vtable_ptr : Nat

/-- `core::alloc::Layout`: a size and an alignment. -/
structure Layout where
  size : Nat
  align : Nat

/-- `Layout::from_size_align_unchecked`: pairs the two values with no check
and no normalization. -/
def Layout.from_size_align_unchecked (size align : Nat) : Layout :=
  { size := size, align := align }

/-- `DynMetadata::size_of` (the `cfg(not(miri))` branch, the one compiled into
the crate): `(self.vtable_ptr as *const usize).add(1).read()`, the word at
offset 1 in pointer-sized units from the start of the vtable. -/
def DynMetadata.size_of (self : DynMetadata) (mem : Memory) : Nat :=
  mem.read (self.vtable_ptr + 1)

/-- `DynMetadata::align_of` (the `cfg(not(miri))` branch):
`(self.vtable_ptr as *const usize).add(2).read()`, the word at offset 2 in
pointer-sized units from the start of the vtable. -/
def DynMetadata.align_of (self : DynMetadata) (mem : Memory) : Nat :=
  mem.read (self.vtable_ptr + 2)

/-- `DynMetadata::layout`:
`Layout::from_size_align_unchecked(self.size_of(), self.align_of())`. -/
def DynMetadata.layout (self : DynMetadata) (mem : Memory) : Layout :=
  Layout.from_size_align_unchecked (self.size_of mem) (self.align_of mem)

/-- The `PartialEq` impl for `DynMetadata`:
`core::ptr::eq::<VTable>(self.vtable_ptr, other.vtable_ptr)`, address
identity of the referenced table. It takes no view of memory, so the contents
of the tables cannot enter the comparison. -/
def DynMetadata.beq (a b : DynMetadata) : Bool :=
  a.vtable_ptr == b.vtable_ptr

/-- The `Ord` impl for `DynMetadata`: compare the two vtable addresses as raw
pointers. -/
def DynMetadata.cmp (a b : DynMetadata) : Ordering :=
  compare a.vtable_ptr b.vtable_ptr

/-- The `Hash` impl for `DynMetadata`:
`core::ptr::hash::<VTable, _>(self.vtable_ptr, hasher)` feeds the address of
the vtable to the hasher. The hasher state is modelled as the list of words
written to it so far. -/
def DynMetadata.hash (a : DynMetadata) (hasher : List Nat) : List Nat :=
  hasher ++ [a.vtable_ptr]

/-- Modelled from the spec: the out-of-band dispatch table record the build
tool produces per (concrete type, contract) pair, holding "concrete value
size, concrete value alignment, a finalizer entry, and one entry per
operation in the dispatch contract, in a fixed, contract-defined order". -/
structure VTableRecord where
  drop_in_place : Nat
  size : Nat
  align : Nat
  methods : List Nat

/-- The layout contract with the build tool, as stated in the spec: the table
at `addr` (in pointer-sized units) holds the finalizer at offset 0, the size
at offset 1, the alignment at offset 2, and the operation entries from offset
3 on. -/
def vtableAt (mem : Memory) (addr : Nat) (vt : VTableRecord) : Prop :=
  mem.read addr = vt.drop_in_place ∧
  mem.read (addr + 1) = vt.size ∧
  mem.read (addr + 2) = vt.align ∧
  ∀ i : Fin vt.methods.length, mem.read (addr + 3 + i.val) = vt.methods.get i

/-- Modelled from the spec: the platform first-class introspection primitive
`core::intrinsics::vtable_size`, used by `DynMetadata::size_of` under
`cfg(miri)`; it returns the concrete value size the platform recorded in the
given dispatch table. -/
def vtable_size (vt : VTableRecord) : Nat :=
  vt.size

/-- Modelled from the spec: the platform primitive
`core::intrinsics::vtable_align`, used by `DynMetadata::align_of` under
`cfg(miri)`; it returns the concrete value alignment recorded in the given
dispatch table. -/
def vtable_align (vt : VTableRecord) : Nat :=
  vt.align

/-- The running platform: its memory together with its own registry of
dispatch tables (which table instance lives at which address); the registry
is what the introspection intrinsics consult. -/
structure Platform where
  mem : Memory
  vtable_of : Nat → VTableRecord

/-- `DynMetadata::size_of` with the `cfg(miri)` choice made explicit: under
miri the platform primitive is used, otherwise the fixed-offset read. -/
def size_of_impl (miri : Bool) (plat : Platform) (dm : DynMetadata) : Nat :=
  if miri then vtable_size (plat.vtable_of dm.vtable_ptr)
  else dm.size_of plat.mem

/-- `DynMetadata::align_of` with the `cfg(miri)` choice made explicit. -/
def align_of_impl (miri : Bool) (plat : Platform) (dm : DynMetadata) : Nat :=
  if miri then vtable_align (plat.vtable_of dm.vtable_ptr)
  else dm.align_of plat.mem

/-- A Rust path (`syn::Path`), as its list of segments. -/
abbrev Path := List String

/-- A Rust type as the derive generator sees it: an opaque textual type from
the input, or the projection `<ty as path::Pointee>::Metadata` the generator
emits. -/
inductive RustTy where
  | named : String → RustTy
  | metadata_proj : Path → RustTy → RustTy

/-- A struct field; the generator only consults its type. -/
structure Field where
  ty : RustTy

/-- `syn::Data`: the shape of the input declaration. A unit struct and an
empty braced or tuple struct all present an empty field iterator, so fields
are one list; for enums only the variant count is kept (the generator never
looks inside). -/
inductive Data where
  | Struct : List Field → Data
  | Enum : Nat → Data
  | Union : Data

/-- A where-clause predicate: the `ty: path::Pointee` bound the generator
pushes, or any pre-existing predicate of the input, kept textually. -/
inductive WherePredicate where
  | pointee_bound : Path → RustTy → WherePredicate
  | other : String → WherePredicate

/-- `syn::Generics`: the generic parameters and the where-clause predicates of
the input declaration. `split_for_impl` yields the parameter list for both the
impl generics and the type generics, plus the where clause. -/
structure Generics where
  params : List String
  where_predicates : List WherePredicate

/-- A token of the remaining input of one nested meta item, after its leading
path: `=`, `,`, a path, or anything else. -/
inductive Tok where
  | eq
  | comma
  | path_tok : Path → Tok
  | other_tok : String → Tok

/-- `syn::meta::ParseNestedMeta`: the leading path of one nested item of a
`#[ptr_meta(...)]` attribute, and the rest of its input tokens. -/
structure NestedMeta where
  path : Path
  input : List Tok

/-- `syn::Error`: a diagnostic message attached to a span; the span is
modelled as the text of the tokens the diagnostic is attached to. -/
structure Error where
  span : String
  message : String

/-- `Attributes` from `src/ptr_meta_derive/src/attributes.rs`: the parsed
options, holding the optional alternative crate path. -/
structure Attributes where
  crate_path : Option Path

/-- `Attributes::default()`: no crate path specified. -/
def Attributes.default : Attributes :=
  { crate_path := none }

/-- Render a path as text, for spans. -/
def path_text (p : Path) : String :=
  String.intercalate "::" p

/-- `try_set_attribute` from `src/ptr_meta_derive/src/attributes.rs`: set the
option if not yet set, otherwise report "<name> already specified" spanned at
the repeated value. -/
def try_set_attribute (slot : Option Path) (value : Path)
    (name : String) : Except Error (Option Path) :=
  match slot with
  | none => Except.ok (some value)
  | some _ =>
    Except.error
      { span := path_text value
        message := name ++ " already specified" }

/-- `Attributes::parse_meta`: accept `crate = <path>` or bare `crate` (at the
end of the input or followed by a comma); a repeated `crate` is an error via
`try_set_attribute`; `crate` followed by anything else is
"expected `crate` or `crate = ...`"; `crate =` not followed by a path is a
path parse error; any other leading path is
"unrecognized ptr_meta argument". -/
def Attributes.parse_meta (self : Attributes) (meta : NestedMeta) :
    Except Error Attributes :=
  if meta.path = ["crate"] then
    match meta.input with
    | Tok.eq :: rest =>
      match rest with
      | Tok.path_tok p :: _ =>
        (try_set_attribute self.crate_path p "crate").map Attributes.mk
      | _ =>
        Except.error
          { span := path_text meta.path
            message := "expected path" }
    | [] =>
      (try_set_attribute self.crate_path ["crate"] "crate").map Attributes.mk
    | Tok.comma :: _ =>
      (try_set_attribute self.crate_path ["crate"] "crate").map Attributes.mk
    | _ =>
      Except.error
        { span := path_text meta.path
          message := "expected `crate` or `crate = ...`" }
  else
    Except.error
      { span := path_text meta.path
        message := "unrecognized ptr_meta argument" }

/-- `syn::AttrStyle`: outer `#[...]` or inner `#![...]`. -/
inductive AttrStyle where
  | outer
  | inner

/-- `syn::Attribute`: style, leading path, and the nested meta items. -/
structure Attribute where
  style : AttrStyle
  path : Path
  nested : List NestedMeta

/-- `Attributes::parse`: fold over the attributes, skipping non-outer ones and
ones whose path is not `ptr_meta`, and feed every nested item of a `ptr_meta`
attribute through `parse_meta`, propagating the first error. -/
def Attributes.parse (attrs : List Attribute) : Except Error Attributes :=
  attrs.foldlM
    (fun result attr =>
      match attr.style with
      | AttrStyle.inner => Except.ok result
      | AttrStyle.outer =>
        if attr.path = ["ptr_meta"] then
          attr.nested.foldlM Attributes.parse_meta result
        else
          Except.ok result)
    Attributes.default

/-- `Attributes::crate_path` (the method): the stored path, defaulting to
`::ptr_meta`. -/
def Attributes.crate_path_value (self : Attributes) : Path :=
  self.crate_path.getD ["ptr_meta"]

/-- `syn::DeriveInput`: the identifier, generics, shape and attributes of the
declaration fed to the derive generator. -/
structure DeriveInput where
  ident : String
  generics : Generics
  data : Data
  attrs : List Attribute

/-- The `quote!` output of `derive_pointee_impl`, structured: the emitted
`unsafe impl #impl_generics #crate_path::Pointee for #ident #ty_generics
#where_clause { type Metadata = <#last_field_ty as #crate_path::Pointee>
::Metadata; }` declaration. -/
structure GeneratedImpl where
  crate_path : Path
  impl_generics : List String
  target_ident : String
  ty_generics : List String
  where_clause : List WherePredicate
  metadata_ty : RustTy

/-- `derive_pointee_impl` from `src/ptr_meta_derive/src/lib.rs`: parse the
attributes; reject enums and unions with a diagnostic at the identifier;
take the last field, rejecting fieldless structs with a diagnostic at the
identifier; push `last_field_ty: crate_path::Pointee` onto the where clause;
and emit the `Pointee` impl with the generics of the input split onto it and
`Metadata` set to the projection of the last field type. -/
def derive_pointee_impl (input : DeriveInput) : Except Error GeneratedImpl :=
  match Attributes.parse input.attrs with
  | Except.error e => Except.error e
  | Except.ok attributes =>
    let ident := input.ident
    let crate_path := attributes.crate_path_value
    match input.data with
    | Data.Enum _ =>
      Except.error
        { span := ident
          message := "enums always have a provided `Pointee` impl because they cannot be dynamically-sized" }
    | Data.Union =>
      Except.error
        { span := ident
          message := "unions always have an provided `Pointee` impl because they cannot be dynamically-sized" }
    | Data.Struct fields =>
      match fields.getLast? with
      | none =>
        Except.error
          { span := ident
            message := "fieldless structs always have a provided `Poitnee` impl because they cannot be dynamically-sized" }
      | some last_field =>
        let last_field_ty := last_field.ty
        Except.ok
          { crate_path := crate_path
            impl_generics := input.generics.params
            target_ident := ident
            ty_generics := input.generics.params
            where_clause := input.generics.where_predicates ++
              [WherePredicate.pointee_bound crate_path last_field_ty]
            metadata_ty := RustTy.metadata_proj crate_path last_field_ty }

/-- The two recognized argument input forms of the claim: `crate = <path>`, or
bare `crate` (input exhausted or next token a comma). -/
def recognized_input : List Tok → Bool
  | Tok.eq :: Tok.path_tok _ :: _ => true
  | [] => true
  | Tok.comma :: _ => true
  | _ => false

/-- Whether an `Except` value is a success. -/
def except_ok {ε α : Type} : Except ε α → Bool
  | Except.ok _ => true
  | Except.error _ => false

theorem except_ok_map {ε α β : Type} (f : α → β) (x : Except ε α) :
    except_ok (x.map f) = except_ok x := by
  cases x <;> rfl

theorem except_ok_ok {ε α : Type} (x : α) :
    except_ok (Except.ok x : Except ε α) = true :=
  rfl

theorem except_ok_error {ε α : Type} (e : ε) :
    except_ok (Except.error e : Except ε α) = false :=
  rfl

theorem try_set_attribute_ok (slot : Option Path) (v : Path) (n : String) :
    except_ok (try_set_attribute slot v n) = true ↔ slot = none := by
  cases slot <;> simp [try_set_attribute, except_ok]

/-- Claim C1: for every metadata shape and every validly formed pointer `r`,
reconstituting from the decomposed parts returns a bit-identical pointer:
`from_raw_parts (to_raw_parts r).1 (to_raw_parts r).2 = r`, with the address
half and the metadata half both unchanged. -/
theorem c1_round_trip {Meta : Type} (r : Ptr Meta) :
    from_raw_parts (to_raw_parts r).1 (to_raw_parts r).2 = r ∧
    addr_cast (from_raw_parts (to_raw_parts r).1 (to_raw_parts r).2) =
      addr_cast r ∧
    metadata (from_raw_parts (to_raw_parts r).1 (to_raw_parts r).2) =
      metadata r :=
  ⟨rfl, rfl, rfl⟩

/-- Claim C10: decomposition is also a left inverse of reconstitution: for
every address `a` and metadata `m`, decomposing the pointer built by
`from_raw_parts a m` yields exactly `(a, m)`; in particular
`metadata (from_raw_parts a m) = m`. -/
theorem c10_decompose_reconstitute {Meta : Type} (a : Nat) (m : Meta) :
    to_raw_parts (from_raw_parts a m) = (a, m) ∧
    metadata (from_raw_parts a m) = m ∧
    addr_cast (from_raw_parts a m) = a :=
  ⟨rfl, rfl, rfl⟩

/-- Claim C5: the codec operations are total pure functions that never return
an error value: `metadata` is fully determined by reading the metadata half
of its argument, and `from_raw_parts` succeeds at construction time for every
(address, metadata) pair, consistent or not, producing exactly the pointer
with those components. -/
theorem c5_codec_total {Meta : Type} (p : Ptr Meta) (a : Nat) (m : Meta) :
    metadata p = p.components.metadata ∧
    from_raw_parts a m =
      { components := { data_address := a, metadata := m } } :=
  ⟨rfl, rfl⟩

/-- Claim C6: for a slice reference of declared element count `n` (any element
type `T`, with `n` covering 0, 1 and large values), `metadata` returns
exactly `n`; for a `str` reference the returned count is its byte count. -/
theorem c6_metadata_count (T : Type) (addr n : Nat) :
    metadata (slice_ref T addr n) = n ∧
    metadata (str_ref addr n) = n ∧
    metadata (slice_ref T addr 0) = 0 ∧
    metadata (slice_ref T addr 1) = 1 ∧
    metadata (slice_ref T addr 1152921504606846976) = 1152921504606846976 :=
  ⟨rfl, rfl, rfl, rfl, rfl⟩

/-- Claim C2: `size_of` returns the pointer-sized word at offset 1 (in
pointer-sized units) from the start of the vtable, `align_of` the word at
offset 2, and `layout` combines exactly these two values. -/
theorem c2_fixed_offset_reads (mem : Memory) (dm : DynMetadata) :
    dm.size_of mem = mem.read (dm.vtable_ptr + 1) ∧
    dm.align_of mem = mem.read (dm.vtable_ptr + 2) ∧
    dm.layout mem =
      Layout.from_size_align_unchecked (dm.size_of mem) (dm.align_of mem) ∧
    (dm.layout mem).size = dm.size_of mem ∧
    (dm.layout mem).align = dm.align_of mem :=
  ⟨rfl, rfl, rfl, rfl, rfl⟩

/-- Claim C3: two `DynMetadata` handles compare equal iff they reference the
exact same vtable instance (address identity); ordering compares the vtable
addresses; hashing feeds only the vtable address to the hasher; and handles
with distinct vtable addresses are unequal regardless of table contents
(the comparison consults no memory at all). -/
theorem c3_handle_identity (a b : DynMetadata) (hasher : List Nat) :
    (DynMetadata.beq a b = true ↔ a.vtable_ptr = b.vtable_ptr) ∧
    (a.vtable_ptr ≠ b.vtable_ptr → DynMetadata.beq a b = false) ∧
    DynMetadata.cmp a b = compare a.vtable_ptr b.vtable_ptr ∧
    DynMetadata.hash a hasher = hasher ++ [a.vtable_ptr] := by
  refine ⟨?_, ?_, rfl, rfl⟩
  · simp [DynMetadata.beq]
  · intro h
    simp [DynMetadata.beq, h]

/-- Witness for C3 at concrete handles: distinct vtable addresses give an
unequal pair, and ordering follows the addresses. -/
theorem c3_handle_identity_witness :
    DynMetadata.beq ⟨0⟩ ⟨1⟩ = false ∧
    DynMetadata.cmp ⟨0⟩ ⟨1⟩ = Ordering.lt := by
  have h := c3_handle_identity ⟨0⟩ ⟨1⟩ []
  exact ⟨h.2.1 (by decide), h.2.2.1.trans (by decide)⟩

/-- Claim C8: for every handle whose vtable address holds a table laid out per
the contract with the build tool, the platform-primitive strategy (the
`cfg(miri)` branch, through the introspection intrinsics) and the
fixed-offset strategy return equal results for both `size_of` and
`align_of`. -/
theorem c8_strategies_agree (plat : Platform) (dm : DynMetadata)
    (h : vtableAt plat.mem dm.vtable_ptr (plat.vtable_of dm.vtable_ptr)) :
    size_of_impl true plat dm = size_of_impl false plat dm ∧
    align_of_impl true plat dm = align_of_impl false plat dm := by
  obtain ⟨-, hs, ha, -⟩ := h
  constructor
  · simp [size_of_impl, vtable_size, DynMetadata.size_of, hs]
  · simp [align_of_impl, vtable_align, DynMetadata.align_of, ha]

/-- A concrete memory for the C8 witness: a vtable at address 0 with
finalizer word 10, size 4, alignment 2 and one method entry 77. -/
def c8_mem : Memory :=
  { read := fun i => List.getD [10, 4, 2, 77] i 0 }

/-- A concrete platform for the C8 witness whose registry agrees with the
memory contents at address 0. -/
def c8_plat : Platform :=
  { mem := c8_mem
    vtable_of := fun _ =>
      { drop_in_place := 10, size := 4, align := 2, methods := [77] } }

/-- Witness for C8 at a concrete platform and handle. -/
theorem c8_strategies_agree_witness :
    size_of_impl true c8_plat ⟨0⟩ = size_of_impl false c8_plat ⟨0⟩ ∧
    align_of_impl true c8_plat ⟨0⟩ = align_of_impl false c8_plat ⟨0⟩ :=
  c8_strategies_agree c8_plat ⟨0⟩
    (by refine ⟨rfl, rfl, rfl, ?_⟩; intro i; fin_cases i <;> rfl)

/-- Claim C4: for every struct input with at least one field whose attributes
parse, the generator succeeds and emits the impl whose `Metadata` type is the
projection of the last field type, whose where clause is the where clause of
the input extended with the `Pointee` bound on the last field type, and whose
generic parameters are carried over from the input onto both the impl
generics and the type generics. -/
theorem c4_struct_tail (input : DeriveInput) (fs : List Field) (f : Field)
    (attrs : Attributes)
    (hdata : input.data = Data.Struct (fs ++ [f]))
    (hattrs : Attributes.parse input.attrs = Except.ok attrs) :
    derive_pointee_impl input =
      Except.ok
        { crate_path := attrs.crate_path_value
          impl_generics := input.generics.params
          target_ident := input.ident
          ty_generics := input.generics.params
          where_clause := input.generics.where_predicates ++
            [WherePredicate.pointee_bound attrs.crate_path_value f.ty]
          metadata_ty :=
            RustTy.metadata_proj attrs.crate_path_value f.ty } := by
  unfold derive_pointee_impl
  rw [hattrs, hdata]
  simp [List.getLast?_append_cons]

/-- A concrete struct input for the C4 witness: two fields, no attributes,
two generic parameters. -/
def c4_example : DeriveInput :=
  { ident := "Block"
    generics := { params := ["H", "T"], where_predicates := [] }
    data := Data.Struct
      [{ ty := RustTy.named "H" }, { ty := RustTy.named "SliceOfT" }]
    attrs := [] }

/-- Witness for C4 at a concrete two-field struct. -/
theorem c4_struct_tail_witness :
    derive_pointee_impl c4_example =
      Except.ok
        { crate_path := ["ptr_meta"]
          impl_generics := ["H", "T"]
          target_ident := "Block"
          ty_generics := ["H", "T"]
          where_clause :=
            [WherePredicate.pointee_bound ["ptr_meta"]
              (RustTy.named "SliceOfT")]
          metadata_ty :=
            RustTy.metadata_proj ["ptr_meta"] (RustTy.named "SliceOfT") } :=
  c4_struct_tail c4_example [{ ty := RustTy.named "H" }]
    { ty := RustTy.named "SliceOfT" } Attributes.default rfl rfl

/-- Claim C7: every zero-field struct and every enum submitted to the
generator (with parseable attributes) is rejected with a build-time error
whose diagnostic is attached to the identifier of the offending declaration
and carries a non-empty message; no impl is emitted. -/
theorem c7_reject_empty_and_enum (input : DeriveInput) (attrs : Attributes)
    (hattrs : Attributes.parse input.attrs = Except.ok attrs)
    (hshape : input.data = Data.Struct [] ∨ ∃ n, input.data = Data.Enum n) :
    ∃ e : Error, derive_pointee_impl input = Except.error e ∧
      e.span = input.ident ∧ e.message ≠ "" := by
  unfold derive_pointee_impl
  rw [hattrs]
  rcases hshape with h | ⟨n, h⟩ <;> rw [h] <;>
    exact ⟨_, rfl, rfl, by simp⟩

/-- Witness for C7 at a concrete enum input. -/
theorem c7_reject_witness :
    ∃ e : Error,
      derive_pointee_impl
        { ident := "Foo"
          generics := { params := [], where_predicates := [] }
          data := Data.Enum 2
          attrs := [] } = Except.error e ∧
      e.span = "Foo" ∧ e.message ≠ "" :=
  c7_reject_empty_and_enum
    { ident := "Foo"
      generics := { params := [], where_predicates := [] }
      data := Data.Enum 2
      attrs := [] }
    Attributes.default rfl (Or.inr ⟨2, rfl⟩)

/-- Claim C9: `parse_meta` accepts exactly the two recognized forms (bare
`crate`, or `crate = path`) and only when the option is not already set, so
any other option text and any repetition is a build-time error; and an
attribute-parsing error surfaces from the generator before any impl is
emitted. -/
theorem c9_option_parsing (a : Attributes) (m : NestedMeta)
    (input : DeriveInput) (e : Error) :
    (except_ok (Attributes.parse_meta a m) = true ↔
      (m.path = ["crate"] ∧ recognized_input m.input = true ∧
        a.crate_path = none)) ∧
    (Attributes.parse input.attrs = Except.error e →
      derive_pointee_impl input = Except.error e) := by
  constructor
  · unfold Attributes.parse_meta
    by_cases hp : m.path = ["crate"]
    · rw [if_pos hp]
      rcases hm : m.input with _ | ⟨t, rest⟩
      · simp [hp, hm, recognized_input, except_ok_map, try_set_attribute_ok]
      · cases t with
        | eq =>
          rcases rest with _ | ⟨t2, rest2⟩
          · simp [hp, hm, recognized_input, except_ok_error]
          · cases t2 <;>
              simp [hp, hm, recognized_input, except_ok_error, except_ok_map,
                try_set_attribute_ok]
        | comma =>
          simp [hp, hm, recognized_input, except_ok_map, try_set_attribute_ok]
        | path_tok p =>
          simp [hp, hm, recognized_input, except_ok_error]
        | other_tok s =>
          simp [hp, hm, recognized_input, except_ok_error]
    · rw [if_neg hp]
      simp [hp, except_ok_error]
  · intro h
    unfold derive_pointee_impl
    rw [h]

/-- Witness for C9: bare `crate` on a fresh option set is accepted, applying
the characterization at a concrete meta item. -/
theorem c9_option_parsing_witness :
    except_ok
      (Attributes.parse_meta Attributes.default
        { path := ["crate"], input := [] }) = true := by
  have h :=
    (c9_option_parsing Attributes.default
      { path := ["crate"], input := [] }
      { ident := "X"
        generics := { params := [], where_predicates := [] }
        data := Data.Union
        attrs := [] }
      { span := "s", message := "m" }).1
  exact h.mpr ⟨rfl, rfl, rfl⟩

end PtrMeta
